/-
Verification of the spreadsheet structure-inference and reshape engine of
the CrunchDataConverter repository (sber_device), against its natural
language specification.

The development shallow-embeds the relevant source code:
  - processing/dns_extended.py : ExtendedReport._parse_structure,
    ExtendedReport.create_report, run_dns_extended
  - main.py : the dialect selector (try run_dns_extended / except KeyError
    -> run_dns_lamp_version)
  - processing/mvm.py and processing/dns_old_version.py : the final
    non-zero-row filter stages.

Modelling conventions:
  - spreadsheet cells are an inductive Cell (empty = None/NaN, num = a
    numeric value modelled as Rat, text = a string);
  - pandas DataFrames assembled from python dicts are lists of
    (key, value) association lists; python dict writes append on the
    right and lookups take the rightmost binding (dget), which is
    observationally equivalent to dict overwrite semantics for every
    operation used by the source (lookup, key membership, iteration
    values);
  - pd.to_numeric(x, errors="coerce") is modelled for the value shapes
    the source exercises: numbers parse to themselves, strings of
    decimal digits parse to their value, every other string and the
    empty cell coerce to missing (none);
  - python exceptions become an explicit error type PyError carried in
    Except; the except KeyError dispatch of main.py matches on the
    keyError constructor.
-/
import Mathlib

set_option linter.unusedVariables false

/-- Scalar content of one spreadsheet cell: empty (None/NaN), a number, or a text. -/
inductive Cell where
  | empty : Cell
  | num : Rat → Cell
  | text : String → Cell
deriving DecidableEq

/-- Raw 0-based grid of cells, as pandas read_excel(header=None) sees the sheet.
Cells outside the stored rows read as empty, matching the NaN padding pandas
applies to short rows. -/
structure Grid where
  rows : List (List Cell)
deriving DecidableEq

def Grid.cell (g : Grid) (r c : Nat) : Cell :=
  (g.rows.getD r []).getD c Cell.empty

def Grid.nrows (g : Grid) : Nat := g.rows.length

/-- One merged-cell range in openpyxl 1-based coordinates. -/
structure MergedRange where
  minRow : Nat
  minCol : Nat
  maxRow : Nat
  maxCol : Nat
deriving DecidableEq

/-- Worksheet as openpyxl exposes it to _parse_structure: values plus the
merged-cell ranges plus the max_column bound of the scan. -/
structure Worksheet where
  grid : Grid
  merges : List MergedRange
  maxCol : Nat

/-- Cell value at 1-based openpyxl coordinates (ws.cell(row, col).value). -/
def Worksheet.cellVal (ws : Worksheet) (r c : Nat) : Cell :=
  ws.grid.cell (r - 1) (c - 1)

/-- Python truthiness of a cell value, as used by the `if val:` tests of the
locator (None and the empty string and the number 0 are falsy). -/
def truthy : Cell → Bool
  | Cell.empty => false
  | Cell.num q => decide (q ≠ 0)
  | Cell.text s => decide (s ≠ "")

/-- Python str() of a cell value, used where the locator stores labels.
Every use in the modelled paths is guarded by truthy, so the empty case is
unreachable there. -/
def cellStr : Cell → String
  | Cell.empty => ""
  | Cell.num q => toString q
  | Cell.text s => s

/-- Digit test for the numeric-string model. -/
def isDigitChar (ch : Char) : Bool := decide ('0' ≤ ch) && decide (ch ≤ '9')

/-- Numeric parse of a string, modelling pd.to_numeric(errors="coerce") on the
string shapes the source exercises: a nonempty all-digit string parses to its
value, everything else coerces to missing. -/
def strToNum (s : String) : Option Rat :=
  if s.toList ≠ [] ∧ s.toList.all isDigitChar then
    some ((s.toList.foldl (fun a ch => a * 10 + (ch.toNat - 48)) 0 : Nat) : Rat)
  else none

/-- pd.to_numeric(cell, errors="coerce"); none models NaN. An empty cell is
already NaN (pd.isna), numbers parse to themselves. -/
def toNumeric : Cell → Option Rat
  | Cell.empty => none
  | Cell.num q => some q
  | Cell.text s => strToNum s

/-- Truncation toward zero, the behaviour of astype(int) on the nonnegative
values the pipeline produces (and of python int() generally). -/
def truncInt (q : Rat) : Int := Int.tdiv q.num (Int.ofNat q.den)

/-- Rightmost-binding lookup in an association list; together with appending
writes on the right this models python dict assignment-and-lookup. -/
def dget {α : Type} : List (String × α) → String → Option α
  | [], _ => none
  | p :: t, k =>
    match dget t k with
    | some v => some v
    | none => if p.1 = k then some p.2 else none

/-- Keys of an association-list row. -/
def rkeys {α : Type} (r : List (String × α)) : List String := r.map Prod.fst

/-- One product-identity field discovered under the Изделие section:
its label and its pandas (0-based) column. -/
structure ProductField where
  name : String
  pdCol : Nat
deriving DecidableEq

/-- One discovered store block: display name, code and the metric-label to
pandas-column map read from the metrics row. -/
structure Shop where
  name : String
  code : String
  metrics : List (String × Nat)
deriving DecidableEq

/-- Result of _parse_structure: product fields, shops and the 0-based first
data row. -/
structure Structure where
  productFields : List ProductField
  shops : List Shop
  dataStartRow : Nat
deriving DecidableEq

/-- Python exception classes that the modelled code raises or dispatches on. -/
inductive PyError where
  | keyError : String → PyError
  | valueError : String → PyError
  | indexError : String → PyError
deriving DecidableEq

/-- Merged range anchored at 1-based (r, c), the merge_map.get((row, col))
lookup of _parse_structure (openpyxl anchors are unique per range). -/
def mergeAt (ws : Worksheet) (r c : Nat) : Option MergedRange :=
  ws.merges.find? (fun m => m.minRow == r && m.minCol == c)

/-- mwidth of _parse_structure: width of the merge anchored at (r, c), else 1. -/
def Worksheet.mwidth (ws : Worksheet) (r c : Nat) : Nat :=
  match mergeAt ws r c with
  | some m => m.maxCol - m.minCol + 1
  | none => 1

/-- mheight of _parse_structure: height of the merge anchored at (r, c), else 1. -/
def Worksheet.mheight (ws : Worksheet) (r c : Nat) : Nat :=
  match mergeAt ws r c with
  | some m => m.maxRow - m.minRow + 1
  | none => 1

/-- Step 1 of _parse_structure: first column of row 1 whose value equals
the string Изделие. -/
def findIzd (ws : Worksheet) : Option Nat :=
  (List.range' 1 ws.maxCol).find? (fun c => decide (ws.cellVal 1 c = Cell.text "Изделие"))

/-- Step 2 of _parse_structure: the while loop collecting product fields in
row 2 within the width of the Изделие merge, stepping by merge width. The
fuel argument only bounds the iteration count; every iteration raises c by
at least one and the loop runs only while c ≤ izdEnd, so the loop performs
at most izdEnd + 1 - c iterations and every call site passes at least that
much fuel, making the function extensionally the python while loop. -/
def scanFields (ws : Worksheet) (izdEnd : Nat) : Nat → Nat → List ProductField
  | 0, _ => []
  | fuel + 1, c =>
    if c ≤ izdEnd then
      let v := ws.cellVal 2 c
      if truthy v then
        ProductField.mk (cellStr v) (c - 1) :: scanFields ws izdEnd fuel (c + ws.mwidth 2 c)
      else
        scanFields ws izdEnd fuel (c + 1)
    else []

/-- Inner while loop of step 5: metric labels of one shop block in the metrics
row, between the block start and its exclusive right bound; fuel as in
scanFields. -/
def scanMetrics (ws : Worksheet) (metricRow stop : Nat) : Nat → Nat → List (String × Nat)
  | 0, _ => []
  | fuel + 1, mc =>
    if mc < stop then
      let mval := ws.cellVal metricRow mc
      if truthy mval then
        (cellStr mval, mc - 1) :: scanMetrics ws metricRow stop fuel (mc + ws.mwidth metricRow mc)
      else
        scanMetrics ws metricRow stop fuel (mc + 1)
    else []

/-- Step 5 of _parse_structure: the while loop walking merged shop headers in
row 1 after the Итого block, collecting shop name, code and metric map; fuel
as in scanFields. -/
def scanShops (ws : Worksheet) (metricRow : Nat) : Nat → Nat → List Shop
  | 0, _ => []
  | fuel + 1, c =>
    if c ≤ ws.maxCol then
      let v := ws.cellVal 1 c
      if truthy v then
        let w := ws.mwidth 1 c
        let code := ws.cellVal 2 c
        Shop.mk (cellStr v) (if truthy code then cellStr code else "")
          (scanMetrics ws metricRow (c + w) (c + w) c) :: scanShops ws metricRow fuel (c + w)
      else
        scanShops ws metricRow fuel (c + 1)
    else []

/-- ExtendedReport._parse_structure (dns_extended.py, lines 85-185): locate
the Изделие section in row 1, read the product fields beneath it, require
Итого immediately to its right, derive the metrics row from the Итого merge
height, derive the first data row (skipping one extra row when that row is
merged across exactly the Изделие width), and walk the shop blocks. -/
def parseStructure (ws : Worksheet) : Except PyError Structure :=
  match findIzd ws with
  | none => Except.error (PyError.keyError "Не найден раздел Изделие в первой строке")
  | some izdCol =>
    let izdW := ws.mwidth 1 izdCol
    let izdEnd := izdCol + izdW - 1
    let productFields := scanFields ws izdEnd (izdEnd + 1) izdCol
    let itogoCol := izdEnd + 1
    if ws.cellVal 1 itogoCol ≠ Cell.text "Итого" then
      Except.error (PyError.keyError
        ("Ожидался Итого в колонке " ++ toString itogoCol ++ ", найдено: "
          ++ cellStr (ws.cellVal 1 itogoCol)))
    else
      let itogoW := ws.mwidth 1 itogoCol
      let itogoH := ws.mheight 1 itogoCol
      let metricRow := 1 + itogoH
      let dataRow1 := metricRow + 1
      let dataRow :=
        match mergeAt ws dataRow1 izdCol with
        | some m => if m.maxCol - m.minCol + 1 = izdW then dataRow1 + 1 else dataRow1
        | none => dataRow1
      let shops := scanShops ws metricRow (ws.maxCol + 1) (itogoCol + itogoW)
      Except.ok (Structure.mk productFields shops (dataRow - 1))

/-- PRODUCT_FIELD_MAP of ExtendedReport: source product-field label to output
column name. -/
def PRODUCT_FIELD_MAP : List (String × String) :=
  [("Код", "Артикул"), ("Товар", "Наименование"), ("КодПроизводителя", "Код модели")]

/-- METRIC_MAPPING of ExtendedReport: source metric label to output column name. -/
def METRIC_MAPPING : List (String × String) :=
  [("Кол-во", "Продажи, шт"), ("Ост. кол-во", "Остатки, шт"), ("Ост. пути", "Остатки в пути")]

/-- INTEGER_FIELDS of ExtendedReport: output columns coerced to int. -/
def INTEGER_FIELDS : List String :=
  ["Продажи, шт", "Остатки, шт", "Остатки в пути"]

/-- BASE_COLNAMES of ExtendedReport: identity columns always present. -/
def BASE_COLNAMES : List String :=
  ["Код модели", "Наименование", "Артикул", "Магазин", "Код магазина"]

/-- METRIC_ORDER of ExtendedReport: canonical order of the metric columns. -/
def METRIC_ORDER : List String :=
  ["Продажи, шт", "Остатки, шт", "Остатки в пути",
   "Себестоимость без НДС", "Ост. Сумма без НДС", "Продажа без НДС"]

/-- product_col_map of create_report: output name to pandas column, for the
discovered product fields whose label PRODUCT_FIELD_MAP recognises. -/
def productColMap (pfs : List ProductField) : List (String × Nat) :=
  pfs.foldl
    (fun m pf =>
      match dget PRODUCT_FIELD_MAP pf.name with
      | some outName => m ++ [(outName, pf.pdCol)]
      | none => m)
    []

/-- Zero fill at expansion time (create_report line 231):
value if pd.notna(value) else 0. -/
def fillMetric (v : Cell) : Cell :=
  if v = Cell.empty then Cell.num 0 else v

/-- One un-typed association row, as the dicts collected in all_rows. -/
abbrev Row := List (String × Cell)

/-- row_data built by create_report for one source row and one shop: the
product fields, the shop identity and the zero-filled metric cells. -/
def buildRowData (g : Grid) (pcm : List (String × Nat)) (ri : Nat) (shop : Shop) : Row :=
  pcm.map (fun p => (p.1, g.cell ri p.2))
    ++ [("Магазин", Cell.text shop.name), ("Код магазина", Cell.text shop.code)]
    ++ shop.metrics.map (fun p =>
        ((dget METRIC_MAPPING p.1).getD p.1, fillMetric (g.cell ri p.2)))

/-- Indices of the data region: range(self._data_start_row, len(self.raw_df)). -/
def dataRowIdxs (g : Grid) (start : Nat) : List Nat :=
  List.range' start (g.nrows - start)

/-- Expansion loop of create_report (lines 204-233): for every data row whose
article cell is numeric, emit one row per shop; rows with a missing or
non-numeric article are skipped. -/
def expandRows (g : Grid) (pcm : List (String × Nat)) (artCol : Nat)
    (shops : List Shop) (start : Nat) : List Row :=
  (dataRowIdxs g start).flatMap (fun ri =>
    if (toNumeric (g.cell ri artCol)).isSome then shops.map (buildRowData g pcm ri)
    else [])

/-- Modelled from the spec: the Row Expander described in section 4.2 first
expands every data row into per-store records and only then applies the
article skip filter once, on the expanded records. Stated for comparison
with expandRows, the expansion the source actually performs. -/
def expandThenFilter (g : Grid) (pcm : List (String × Nat)) (artCol : Nat)
    (shops : List Shop) (start : Nat) : List Row :=
  (((dataRowIdxs g start).flatMap
      (fun ri => shops.map (fun s => (ri, buildRowData g pcm ri s))))
    |>.filter (fun pr => (toNumeric (g.cell pr.1 artCol)).isSome)).map Prod.snd

/-- Typed value of one cell of the final table: an int column entry, a float
column entry, or an untouched raw object entry. -/
inductive PValue where
  | vint : Int → PValue
  | vfloat : Rat → PValue
  | vraw : Cell → PValue
deriving DecidableEq

/-- Column-wise type coercion of create_report (lines 237-255): Артикул and
Код магазина become ints (to_numeric, fill 0, truncate); non-base integer
metric columns likewise; every other non-base column becomes a float with
missing parsed as 0; the remaining base columns stay raw. The fill-0 on
Артикул is unreachable because create_report raises first when an article
fails the numeric parse (astype(int) on NaN). -/
def coerceVal (k : String) (v : Cell) : PValue :=
  if k = "Артикул" then PValue.vint (truncInt ((toNumeric v).getD 0))
  else if k = "Код магазина" then PValue.vint (truncInt ((toNumeric v).getD 0))
  else if BASE_COLNAMES.contains k then PValue.vraw v
  else if INTEGER_FIELDS.contains k then PValue.vint (truncInt ((toNumeric v).getD 0))
  else PValue.vfloat ((toNumeric v).getD 0)

/-- One typed row of the final table. -/
abbrev FRow := List (String × PValue)

/-- Value of a final-row column, absent columns reading as NaN. -/
def fget (r : FRow) (k : String) : PValue :=
  (dget r k).getD (PValue.vraw Cell.empty)

/-- Lexicographic comparison of character lists by code point, the python
string comparison. -/
def charListLe : List Char → List Char → Bool
  | [], _ => true
  | _ :: _, [] => false
  | a :: as, b :: bs => if a = b then charListLe as bs else decide (a < b)

/-- Python string comparison a <= b. -/
def strLe (a b : String) : Bool := charListLe a.toList b.toList

/-- Rank used to totalise the python comparison across cell shapes; the
sort key columns of the modelled paths are homogeneous, where cellLe agrees
with the python per-type comparison (numbers by value, strings
lexicographically, missing values last). -/
def cellRank : Cell → Nat
  | Cell.num _ => 0
  | Cell.text _ => 1
  | Cell.empty => 2

/-- Comparison of two cells as sort keys. -/
def cellLe (a b : Cell) : Bool :=
  match a, b with
  | Cell.num x, Cell.num y => decide (x ≤ y)
  | Cell.text x, Cell.text y => strLe x y
  | _, _ => decide (cellRank a ≤ cellRank b)

/-- Rank totalising the comparison across typed-value shapes. -/
def pvRank : PValue → Nat
  | PValue.vint _ => 0
  | PValue.vfloat _ => 1
  | PValue.vraw _ => 2

/-- Comparison of two typed values as sort keys. -/
def pvLe (a b : PValue) : Bool :=
  match a, b with
  | PValue.vint x, PValue.vint y => decide (x ≤ y)
  | PValue.vfloat x, PValue.vfloat y => decide (x ≤ y)
  | PValue.vraw x, PValue.vraw y => cellLe x y
  | _, _ => decide (pvRank a ≤ pvRank b)

/-- sort_values(by=["Код модели", "Магазин"]) comparison: model code first,
shop name breaking ties, both ascending. -/
def rowLe (a b : FRow) : Bool :=
  if fget a "Код модели" = fget b "Код модели" then
    pvLe (fget a "Магазин") (fget b "Магазин")
  else pvLe (fget a "Код модели") (fget b "Код модели")

/-- Insertion of one element into a sorted list. -/
def insertSorted {α : Type} (le : α → α → Bool) (a : α) : List α → List α
  | [] => [a]
  | b :: l => if le a b then a :: b :: l else b :: insertSorted le a l

/-- Insertion sort; models sort_values, which produces some permutation of
the rows that is sorted by the requested keys. -/
def sortIns {α : Type} (le : α → α → Bool) : List α → List α
  | [] => []
  | a :: l => insertSorted le a (sortIns le l)

/-- Local art_col of create_report: the pandas column of Артикул, or the
default column 0 when the product fields did not resolve the Код label. -/
def reportArtCol (st : Structure) : Nat :=
  (dget (productColMap st.productFields) "Артикул").getD 0

/-- Local all_rows of create_report: the expansion of every numeric-article
data row into one dict per shop. -/
def reportAllRows (g : Grid) (st : Structure) : List Row :=
  expandRows g (productColMap st.productFields) (reportArtCol st) st.shops
    st.dataStartRow

/-- Columns of the frame pd.DataFrame(all_rows): the union of the dict keys.
Only membership of this list is ever used, so duplicates are kept. -/
def reportCols (g : Grid) (st : Structure) : List String :=
  (reportAllRows g st).flatMap rkeys

/-- found_metrics of create_report: the metric columns of METRIC_ORDER that
the frame carries. -/
def foundMetricsOf (cols : List String) : List String :=
  METRIC_ORDER.filter (fun m => decide (m ∈ cols))

/-- Column-wise coercion of the frame (create_report lines 237-255), applied
per row over every column of the frame; a key the row lacks reads as NaN,
as pandas fills it during frame assembly. -/
def reportCoerced (g : Grid) (st : Structure) : List FRow :=
  (reportAllRows g st).map (fun r =>
    (reportCols g st).map (fun k => (k, coerceVal k ((dget r k).getD Cell.empty))))

/-- reindex of create_report (line 259): the base columns followed by the
metrics found, dropping every other column and filling an absent base
column with NaN. -/
def reportFinal (g : Grid) (st : Structure) : List FRow :=
  (reportCoerced g st).map (fun r =>
    (BASE_COLNAMES ++ foundMetricsOf (reportCols g st)).map (fun k =>
      (k, (dget r k).getD (PValue.vraw Cell.empty))))

/-- create_report of ExtendedReport (dns_extended.py, lines 187-264):
fail when no shop was found; resolve the product columns; expand every
numeric-article data row into one row per shop with zero-filled metrics;
fail with KeyError Артикул when the assembled frame has no Артикул column
(the pandas column lookup on the first coercion line raises it); fail when
an Артикул value coerces to NaN (astype(int) on NaN — unreachable after
the expansion filter); coerce the columns; reindex to the base columns
followed by the metrics present; sort by model code then shop. -/
def create_report (g : Grid) (st : Structure) : Except PyError (List FRow) :=
  if st.shops.isEmpty then
    Except.error (PyError.valueError "Не найдено ни одного магазина в данных")
  else if "Артикул" ∉ reportCols g st then
    Except.error (PyError.keyError "Артикул")
  else if (reportAllRows g st).any
      (fun r => (toNumeric ((dget r "Артикул").getD Cell.empty)).isNone) then
    Except.error (PyError.valueError "Cannot convert non-finite values (NA or inf) to integer")
  else
    Except.ok (sortIns rowLe (reportFinal g st))

/-- run_dns_extended together with ExtendedReport.__post_init__: parse the
structure from the merged cells, fail when the raw frame is empty, then
assemble the report. -/
def run_dns_extended (ws : Worksheet) : Except PyError (List FRow) :=
  match parseStructure ws with
  | Except.error e => Except.error e
  | Except.ok st =>
    if ws.grid.rows.isEmpty then
      Except.error (PyError.valueError "Нет данных для обработки")
    else create_report ws.grid st

/-- Dialect selector of main.py (lines 110-116) for the extended DNS format:
try the extended driver; on KeyError run the lamp driver once and return its
outcome as is; every other outcome of the primary driver passes through
unmodified. -/
def selectExtendedDriver {α : Type} (primary fallback : Except PyError α) :
    Except PyError α :=
  match primary with
  | Except.error (PyError.keyError _) => fallback
  | r => r

/-- Test for the python exception class the selector catches. -/
def isKeyError {α : Type} : Except PyError α → Bool
  | Except.error (PyError.keyError _) => true
  | _ => false

/-- One row of the MVM table at the point where get_mvm_data names its eight
columns (mvm.py lines 58-68): four identity columns and four numeric metric
columns, NaN already filled with 0 upstream. -/
structure MvmRow where
  artikul : Cell
  naimenovanie : Cell
  gorod : Cell
  kodMagazina : Cell
  ostatkiSht : Rat
  ostatkiRub : Rat
  prodazhiRub : Rat
  prodazhiSht : Rat
deriving DecidableEq

/-- Non-zero test of get_mvm_data (mvm.py lines 71-76). -/
def mvmNonzero (r : MvmRow) : Bool :=
  decide (r.ostatkiSht ≠ 0) || decide (r.ostatkiRub ≠ 0)
    || decide (r.prodazhiRub ≠ 0) || decide (r.prodazhiSht ≠ 0)

/-- Final filter stage of get_mvm_data (mvm.py lines 71-77): keep only rows
with some non-zero metric; the following iloc re-arranges columns only. -/
def mvmNonzeroStage (rows : List MvmRow) : List MvmRow :=
  rows.filter mvmNonzero

/-- One row of the old-format DNS table at the point where
get_dns_data_old_format names its eight columns (dns_old_version.py
lines 93-104). -/
structure DnsOldRow where
  kodModeli : Cell
  naimenovanie : Cell
  artikul : Cell
  magazin : Cell
  kodMagazina : Cell
  prodazhiSht : Rat
  ostatkiSht : Rat
  ostatkiVPuti : Rat
deriving DecidableEq

/-- Non-zero test of get_dns_data_old_format (dns_old_version.py lines 105-109). -/
def dnsOldNonzero (r : DnsOldRow) : Bool :=
  decide (r.prodazhiSht ≠ 0) || decide (r.ostatkiSht ≠ 0)
    || decide (r.ostatkiVPuti ≠ 0)

/-- Final filter stage of get_dns_data_old_format: keep only rows with some
non-zero metric. -/
def dnsOldNonzeroStage (rows : List DnsOldRow) : List DnsOldRow :=
  rows.filter dnsOldNonzero

/-- Boolean success test on a driver outcome. -/
def isOkE {α : Type} : Except PyError α → Bool
  | Except.ok _ => true
  | Except.error _ => false

/-- Sort-key projection of one final row: model code and shop name. -/
def keyPair (r : FRow) : PValue × PValue :=
  (fget r "Код модели", fget r "Магазин")

/-- Fixture: a well-formed extended worksheet with three product fields,
an Итого block merged over two header rows, and two stores B and A with one
metric each; the model codes are the digit strings 102, 11 and 2 stored as
text. 1-based layout: row 1 holds Изделие (merged over columns 1-3), Итого
(merged over rows 1-2) and the store names; row 2 the product-field labels
and store codes; row 3 the metric labels; rows 4-6 the data. -/
def wsA : Worksheet :=
  Worksheet.mk
    (Grid.mk
      [[Cell.text "Изделие", Cell.empty, Cell.empty, Cell.text "Итого",
        Cell.text "B", Cell.text "A"],
       [Cell.text "Код", Cell.text "Товар", Cell.text "КодПроизводителя",
        Cell.empty, Cell.text "10", Cell.text "20"],
       [Cell.empty, Cell.empty, Cell.empty, Cell.empty,
        Cell.text "Кол-во", Cell.text "Кол-во"],
       [Cell.num 1, Cell.text "P1", Cell.text "102", Cell.empty,
        Cell.num 5, Cell.num 7],
       [Cell.num 2, Cell.text "P2", Cell.text "11", Cell.empty,
        Cell.num 0, Cell.num 1],
       [Cell.num 3, Cell.text "P3", Cell.text "2", Cell.empty,
        Cell.num 2, Cell.num 0]])
    [MergedRange.mk 1 1 1 3, MergedRange.mk 1 4 2 4]
    6

/-- Grid of wsA. -/
def gA : Grid := wsA.grid

/-- Structure that parseStructure discovers on wsA, spelled out. -/
def stA : Structure :=
  Structure.mk
    [ProductField.mk "Код" 0, ProductField.mk "Товар" 1,
     ProductField.mk "КодПроизводителя" 2]
    [Shop.mk "B" "10" [("Кол-во", 4)], Shop.mk "A" "20" [("Кол-во", 5)]]
    3

/-- Fixture: a worksheet with no Изделие anchor in its first row. -/
def wsB : Worksheet :=
  Worksheet.mk (Grid.mk [[Cell.text "Что-то", Cell.num 3]]) [] 2

/-- Fixture: an extended worksheet whose product-field row carries Код and
КодПроизводителя but no Товар label, with one store and one data row. -/
def wsC : Worksheet :=
  Worksheet.mk
    (Grid.mk
      [[Cell.text "Изделие", Cell.empty, Cell.empty, Cell.text "Итого",
        Cell.text "B"],
       [Cell.text "Код", Cell.empty, Cell.text "КодПроизводителя",
        Cell.empty, Cell.text "10"],
       [Cell.empty, Cell.empty, Cell.empty, Cell.empty, Cell.text "Кол-во"],
       [Cell.num 1, Cell.empty, Cell.text "7", Cell.empty, Cell.num 4]])
    [MergedRange.mk 1 1 1 3, MergedRange.mk 1 4 2 4]
    5

/-- Fixture: a structure whose product fields lack the Код label. -/
def stD : Structure :=
  Structure.mk
    [ProductField.mk "Товар" 1, ProductField.mk "КодПроизводителя" 2]
    [Shop.mk "B" "10" [("Кол-во", 4)]]
    3

/-- Fixture: a structure with zero discovered stores. -/
def stEmpty : Structure := Structure.mk [ProductField.mk "Код" 0] [] 3

/-- Fixture MVM rows: one with every metric zero, one with a non-zero metric. -/
def mvmRowZero : MvmRow :=
  MvmRow.mk (Cell.text "1") (Cell.text "X") (Cell.text "C") (Cell.text "5") 0 0 0 0

def mvmRowLive : MvmRow :=
  MvmRow.mk (Cell.text "2") (Cell.text "Y") (Cell.text "C") (Cell.text "5") 3 0 0 0

/-- Fixture old-DNS rows: one with every metric zero, one with a non-zero metric. -/
def dnsOldRowZero : DnsOldRow :=
  DnsOldRow.mk (Cell.text "m") (Cell.text "X") (Cell.num 1) (Cell.text "S") (Cell.num 9) 0 0 0

def dnsOldRowLive : DnsOldRow :=
  DnsOldRow.mk (Cell.text "m") (Cell.text "Y") (Cell.num 2) (Cell.text "S") (Cell.num 9) 0 4 0

/- Helper lemmas about the association-list model, list expansion and the
insertion sort, shared by the claim theorems. -/

theorem dget_append {α : Type} (l1 l2 : List (String × α)) (k : String) :
    dget (l1 ++ l2) k =
      match dget l2 k with
      | some v => some v
      | none => dget l1 k := by
  induction l1 with
  | nil =>
    simp only [List.nil_append, dget]
    cases dget l2 k <;> rfl
  | cons p t ih =>
    simp only [List.cons_append, dget, List.append_eq, ih]
    cases dget l2 k <;> cases dget t k <;> rfl

theorem dget_eq_none_of_keys {α : Type} (l : List (String × α)) (k : String)
    (h : ∀ p ∈ l, p.1 ≠ k) : dget l k = none := by
  induction l with
  | nil => rfl
  | cons p t ih =>
    have hp : p.1 ≠ k := h p (List.mem_cons_self p t)
    have ht : dget t k = none := ih (fun q hq => h q (List.mem_cons_of_mem p hq))
    simp [dget, ht, hp]

theorem dget_map_val {α β : Type} (l : List (String × α)) (f : α → β) (k : String) :
    dget (l.map fun p => (p.1, f p.2)) k = (dget l k).map f := by
  induction l with
  | nil => rfl
  | cons p t ih =>
    simp only [List.map_cons, dget, ih]
    cases dget t k with
    | some v => rfl
    | none => by_cases hp : p.1 = k <;> simp [hp]

theorem dget_isSome_iff {α : Type} (l : List (String × α)) (k : String) :
    (dget l k).isSome = true ↔ k ∈ rkeys l := by
  induction l with
  | nil => simp [dget, rkeys]
  | cons p t ih =>
    have hcons : rkeys (p :: t) = p.1 :: rkeys t := rfl
    constructor
    · intro h
      rw [hcons]
      cases hdt : dget t k with
      | some v => exact List.mem_cons_of_mem _ (ih.mp (by rw [hdt]; rfl))
      | none =>
        by_cases hp : p.1 = k
        · rw [← hp]
          exact List.mem_cons_self _ _
        · exfalso
          unfold dget at h
          simp only [hdt] at h
          simp [hp] at h
    · intro h
      rw [hcons] at h
      rcases List.mem_cons.mp h with heq | hmem
      · unfold dget
        cases hdt : dget t k with
        | some v => rfl
        | none => simp [← heq]
      · have hs := ih.mpr hmem
        unfold dget
        cases hdt : dget t k with
        | some v => rfl
        | none => rw [hdt] at hs; simp at hs

theorem filter_pair_inner {α β : Type} (x : α) (p : α → Bool) (m : List β) :
    (((m.map fun r => (x, r)).filter fun pr => p pr.1).map Prod.snd) =
      if p x then m else [] := by
  induction m with
  | nil => by_cases h : p x <;> simp [h]
  | cons r rs ih => by_cases h : p x <;> simp [List.filter_cons, h, ih]

theorem filter_pair_flatMap {α β : Type} (l : List α) (p : α → Bool) (f : α → List β) :
    (l.flatMap fun x => if p x then f x else []) =
      ((l.flatMap fun x => (f x).map fun r => (x, r)).filter fun pr => p pr.1).map
        Prod.snd := by
  induction l with
  | nil => simp
  | cons a t ih =>
    simp only [List.flatMap_cons, List.filter_append, List.map_append, ← ih]
    rw [filter_pair_inner]

theorem flatMap_if_filter {α β : Type} (l : List α) (p : α → Bool) (f : α → List β) :
    (l.flatMap fun x => if p x then f x else []) = (l.filter p).flatMap f := by
  induction l with
  | nil => simp
  | cons a t ih => by_cases h : p a <;> simp [List.filter_cons, h, ih]

theorem length_flatMap_const {α β : Type} (l : List α) (f : α → List β) (M : Nat)
    (h : ∀ x ∈ l, (f x).length = M) : (l.flatMap f).length = l.length * M := by
  induction l with
  | nil => simp
  | cons a t ih =>
    have ha := h a (List.mem_cons_self a t)
    have ht := ih (fun x hx => h x (List.mem_cons_of_mem a hx))
    simp [List.flatMap_cons, ha, ht, Nat.succ_mul, Nat.add_comm]

theorem length_insertSorted {α : Type} (le : α → α → Bool) (a : α) (l : List α) :
    (insertSorted le a l).length = l.length + 1 := by
  induction l with
  | nil => rfl
  | cons b t ih => by_cases h : le a b <;> simp [insertSorted, h, ih]

theorem length_sortIns {α : Type} (le : α → α → Bool) (l : List α) :
    (sortIns le l).length = l.length := by
  induction l with
  | nil => rfl
  | cons a t ih => simp [sortIns, length_insertSorted, ih]

theorem mem_insertSorted {α : Type} (le : α → α → Bool) (a x : α) (l : List α) :
    x ∈ insertSorted le a l ↔ x = a ∨ x ∈ l := by
  induction l with
  | nil => simp [insertSorted]
  | cons b t ih =>
    unfold insertSorted
    by_cases h : le a b
    · simp only [if_pos h, List.mem_cons]
    · simp only [if_neg h, List.mem_cons, ih]
      tauto

theorem pairwise_insertSorted {α : Type} (le : α → α → Bool)
    (htot : ∀ a b, le a b = true ∨ le b a = true)
    (htrans : ∀ a b c, le a b = true → le b c = true → le a c = true)
    (a : α) (l : List α) (hp : l.Pairwise fun x y => le x y = true) :
    (insertSorted le a l).Pairwise fun x y => le x y = true := by
  induction l with
  | nil => simp [insertSorted]
  | cons b t ih =>
    rcases List.pairwise_cons.mp hp with ⟨hb, ht⟩
    unfold insertSorted
    by_cases h : le a b
    · rw [if_pos h]
      refine List.Pairwise.cons ?_ hp
      intro x hx
      rcases List.mem_cons.mp hx with rfl | hxt
      · exact h
      · exact htrans _ _ _ h (hb x hxt)
    · rw [if_neg h]
      have hba : le b a = true := by
        rcases htot a b with h1 | h1
        · exact absurd h1 h
        · exact h1
      refine List.Pairwise.cons ?_ (ih ht)
      intro x hx
      rcases (mem_insertSorted le a x t).mp hx with rfl | hxt
      · exact hba
      · exact hb x hxt

theorem pairwise_sortIns {α : Type} (le : α → α → Bool)
    (htot : ∀ a b, le a b = true ∨ le b a = true)
    (htrans : ∀ a b c, le a b = true → le b c = true → le a c = true)
    (l : List α) : (sortIns le l).Pairwise fun x y => le x y = true := by
  induction l with
  | nil => simp [sortIns]
  | cons a t ih => exact pairwise_insertSorted le htot htrans a _ ih

theorem charListLe_total : ∀ a b : List Char, charListLe a b = true ∨ charListLe b a = true
  | [], _ => Or.inl rfl
  | _ :: _, [] => Or.inr rfl
  | a :: as, b :: bs => by
    by_cases h : a = b
    · subst h
      rcases charListLe_total as bs with h1 | h1
      · exact Or.inl (by simp [charListLe, h1])
      · exact Or.inr (by simp [charListLe, h1])
    · rcases lt_or_gt_of_ne h with hlt | hgt
      · exact Or.inl (by simp [charListLe, h, hlt])
      · exact Or.inr (by simp [charListLe, Ne.symm h, hgt])

theorem charListLe_trans :
    ∀ a b c : List Char, charListLe a b = true → charListLe b c = true →
      charListLe a c = true
  | [], _, _, _, _ => rfl
  | x :: xs, [], _, h1, _ => by simp [charListLe] at h1
  | x :: xs, y :: ys, [], _, h2 => by simp [charListLe] at h2
  | x :: xs, y :: ys, z :: zs, h1, h2 => by
    by_cases hxy : x = y <;> by_cases hyz : y = z
    · subst hxy; subst hyz
      simp only [charListLe, if_pos rfl] at h1 h2 ⊢
      exact charListLe_trans xs ys zs h1 h2
    · subst hxy
      simp only [charListLe, if_pos rfl, if_neg hyz] at h2 ⊢
      exact h2
    · subst hyz
      simp only [charListLe, if_pos rfl, if_neg hxy] at h1 ⊢
      exact h1
    · simp only [charListLe, if_neg hxy, if_neg hyz, decide_eq_true_eq] at h1 h2
      have hxz : x < z := lt_trans h1 h2
      have hne : x ≠ z := ne_of_lt hxz
      simp [charListLe, hne, hxz]

theorem charListLe_antisymm :
    ∀ a b : List Char, charListLe a b = true → charListLe b a = true → a = b
  | [], [], _, _ => rfl
  | [], _ :: _, _, h2 => by simp [charListLe] at h2
  | _ :: _, [], h1, _ => by simp [charListLe] at h1
  | x :: xs, y :: ys, h1, h2 => by
    by_cases h : x = y
    · subst h
      simp only [charListLe, if_pos rfl] at h1 h2
      rw [charListLe_antisymm xs ys h1 h2]
    · exfalso
      simp only [charListLe, if_neg h, if_neg (Ne.symm h), decide_eq_true_eq] at h1 h2
      exact absurd h2 (asymm h1)

theorem strLe_total (a b : String) : strLe a b = true ∨ strLe b a = true :=
  charListLe_total a.toList b.toList

theorem strLe_trans (a b c : String) (h1 : strLe a b = true) (h2 : strLe b c = true) :
    strLe a c = true :=
  charListLe_trans a.toList b.toList c.toList h1 h2

theorem strLe_antisymm (a b : String) (h1 : strLe a b = true) (h2 : strLe b a = true) :
    a = b := by
  have h := charListLe_antisymm a.toList b.toList h1 h2
  cases a with
  | mk da =>
    cases b with
    | mk db => simpa [String.toList] using congrArg String.mk h

theorem cellLe_total (a b : Cell) : cellLe a b = true ∨ cellLe b a = true := by
  cases a <;> cases b <;> simp [cellLe, cellRank] <;>
    first
      | exact le_total _ _
      | exact strLe_total _ _

theorem cellLe_trans (a b c : Cell) (h1 : cellLe a b = true) (h2 : cellLe b c = true) :
    cellLe a c = true := by
  cases a <;> cases b <;> cases c <;>
    simp only [cellLe, cellRank, decide_eq_true_eq] at h1 h2 ⊢ <;>
    first
      | rfl
      | omega
      | exact le_trans h1 h2
      | exact strLe_trans _ _ _ h1 h2

theorem cellLe_antisymm (a b : Cell) (h1 : cellLe a b = true) (h2 : cellLe b a = true) :
    a = b := by
  cases a <;> cases b <;>
    simp only [cellLe, cellRank, decide_eq_true_eq] at h1 h2 ⊢ <;>
    first
      | rfl
      | omega
      | exact congrArg _ (le_antisymm h1 h2)
      | exact congrArg _ (strLe_antisymm _ _ h1 h2)

theorem pvLe_total (a b : PValue) : pvLe a b = true ∨ pvLe b a = true := by
  cases a <;> cases b <;> simp [pvLe, pvRank] <;>
    first
      | exact le_total _ _
      | exact cellLe_total _ _

theorem pvLe_trans (a b c : PValue) (h1 : pvLe a b = true) (h2 : pvLe b c = true) :
    pvLe a c = true := by
  cases a <;> cases b <;> cases c <;>
    simp only [pvLe, pvRank, decide_eq_true_eq] at h1 h2 ⊢ <;>
    first
      | rfl
      | omega
      | exact le_trans h1 h2
      | exact cellLe_trans _ _ _ h1 h2

theorem pvLe_antisymm (a b : PValue) (h1 : pvLe a b = true) (h2 : pvLe b a = true) :
    a = b := by
  cases a <;> cases b <;>
    simp only [pvLe, pvRank, decide_eq_true_eq] at h1 h2 ⊢ <;>
    first
      | rfl
      | omega
      | exact congrArg _ (le_antisymm h1 h2)
      | exact congrArg _ (cellLe_antisymm _ _ h1 h2)

theorem rowLe_total (a b : FRow) : rowLe a b = true ∨ rowLe b a = true := by
  unfold rowLe
  by_cases h : fget a "Код модели" = fget b "Код модели"
  · rw [if_pos h, if_pos h.symm]
    exact pvLe_total _ _
  · rw [if_neg h, if_neg (Ne.symm h)]
    exact pvLe_total _ _

theorem rowLe_trans (a b c : FRow) (h1 : rowLe a b = true) (h2 : rowLe b c = true) :
    rowLe a c = true := by
  unfold rowLe at h1 h2 ⊢
  by_cases hab : fget a "Код модели" = fget b "Код модели" <;>
    by_cases hbc : fget b "Код модели" = fget c "Код модели"
  · rw [if_pos hab] at h1
    rw [if_pos hbc] at h2
    rw [if_pos (hab.trans hbc)]
    exact pvLe_trans _ _ _ h1 h2
  · rw [if_pos hab] at h1
    rw [if_neg hbc] at h2
    have hac : fget a "Код модели" ≠ fget c "Код модели" := by rw [hab]; exact hbc
    rw [if_neg hac, hab]
    exact h2
  · rw [if_neg hab] at h1
    rw [if_pos hbc] at h2
    have hac : fget a "Код модели" ≠ fget c "Код модели" := by rw [← hbc]; exact hab
    rw [if_neg hac, ← hbc]
    exact h1
  · rw [if_neg hab] at h1
    rw [if_neg hbc] at h2
    by_cases hac : fget a "Код модели" = fget c "Код модели"
    · exfalso
      rw [← hac] at h2
      exact hab (pvLe_antisymm _ _ h1 h2)
    · rw [if_neg hac]
      exact pvLe_trans _ _ _ h1 h2

/-- C1: for the extended DNS format the selector catches exactly the KeyError
class (the class raised by a field-resolution failure, the pandas column
lookup KeyError on Артикул) and runs the lamp driver once, returning its
outcome as is — in particular a failing lamp run is not retried — while a
ValueError, an IndexError or a success of the primary driver passes through
to the caller unmodified. -/
theorem c1_selector_single_retry :
    (∀ (m : String) (fb : Except PyError (List FRow)),
        selectExtendedDriver (Except.error (PyError.keyError m)) fb = fb) ∧
    (∀ (m m2 : String),
        selectExtendedDriver (Except.error (PyError.keyError m) : Except PyError (List FRow))
          (Except.error (PyError.keyError m2)) = Except.error (PyError.keyError m2)) ∧
    (∀ (m : String) (fb : Except PyError (List FRow)),
        selectExtendedDriver (Except.error (PyError.valueError m)) fb =
          Except.error (PyError.valueError m)) ∧
    (∀ (m : String) (fb : Except PyError (List FRow)),
        selectExtendedDriver (Except.error (PyError.indexError m)) fb =
          Except.error (PyError.indexError m)) ∧
    (∀ (t : List FRow) (fb : Except PyError (List FRow)),
        selectExtendedDriver (Except.ok t) fb = Except.ok t) :=
  ⟨fun _ _ => rfl, fun _ _ => rfl, fun _ _ => rfl, fun _ _ => rfl, fun _ _ => rfl⟩

/-- C3: the expansion of create_report never lets a source row with a blank
or non-numeric article cell contribute a record: it equals the expansion
restricted to the numeric-article rows, and it also equals the spec reading
that expands every row into per-store records first and applies the article
skip filter exactly once afterwards (the filter commutes with per-store
expansion because the article test depends only on the source row); the
blank cell and the text Итого both fail the numeric parse. -/
theorem c3_article_rows_never_contribute (g : Grid) (pcm : List (String × Nat))
    (artCol : Nat) (shops : List Shop) (start : Nat) :
    expandRows g pcm artCol shops start = expandThenFilter g pcm artCol shops start ∧
    expandRows g pcm artCol shops start =
      ((dataRowIdxs g start).filter fun ri =>
          (toNumeric (g.cell ri artCol)).isSome).flatMap
        (fun ri => shops.map (buildRowData g pcm ri)) ∧
    toNumeric Cell.empty = none ∧ toNumeric (Cell.text "Итого") = none := by
  refine ⟨?_, ?_, rfl, by decide⟩
  · unfold expandRows expandThenFilter
    have h := filter_pair_flatMap (dataRowIdxs g start)
      (fun ri => (toNumeric (g.cell ri artCol)).isSome)
      (fun ri => shops.map (buildRowData g pcm ri))
    simpa [List.map_map, Function.comp] using h
  · unfold expandRows
    exact flatMap_if_filter _ _ _

/-- C4: a metric cell that is empty is zero-filled already at expansion time,
and a metric value that is empty or fails the numeric parse coerces to the
domain zero of its column — the int 0 for the integer metric columns and the
float 0.0 for the monetary ones — by total functions, so no error is raised
for such a cell. -/
theorem c4_zero_fill :
    fillMetric Cell.empty = Cell.num 0 ∧
    (∀ (k : String) (v : Cell), (toNumeric v).isNone = true →
      BASE_COLNAMES.contains k = false →
      coerceVal k v =
        if INTEGER_FIELDS.contains k then PValue.vint 0 else PValue.vfloat 0) := by
  refine ⟨rfl, fun k v hv hk => ?_⟩
  have hkArt : k ≠ "Артикул" := by
    intro h
    rw [h] at hk
    exact Bool.noConfusion
      ((by decide : BASE_COLNAMES.contains "Артикул" = true).symm.trans hk)
  have hkShop : k ≠ "Код магазина" := by
    intro h
    rw [h] at hk
    exact Bool.noConfusion
      ((by decide : BASE_COLNAMES.contains "Код магазина" = true).symm.trans hk)
  have hvz : (toNumeric v).getD 0 = 0 := by
    cases hx : toNumeric v with
    | some q => rw [hx] at hv; simp at hv
    | none => rfl
  unfold coerceVal
  rw [if_neg hkArt, if_neg hkShop]
  have hkBase : ¬ (BASE_COLNAMES.contains k = true) := by
    rw [hk]
    simp
  rw [if_neg hkBase]
  by_cases hint : INTEGER_FIELDS.contains k = true
  · rw [if_pos hint, if_pos hint, hvz]
    rfl
  · rw [if_neg hint, if_neg hint, hvz]

/-- C4 witness at the cells the claim names: the text Итого fails the parse
and an integer metric коerces it to the int 0; the empty cell in a monetary
column coerces to the float 0. -/
theorem c4_zero_fill_witness :
    ((toNumeric (Cell.text "Итого")).isNone = true ∧
      BASE_COLNAMES.contains "Продажи, шт" = false ∧
      (toNumeric Cell.empty).isNone = true ∧
      BASE_COLNAMES.contains "Себестоимость без НДС" = false) ∧
    coerceVal "Продажи, шт" (Cell.text "Итого") = PValue.vint 0 ∧
    coerceVal "Себестоимость без НДС" Cell.empty = PValue.vfloat 0 := by
  refine ⟨by decide, ?_, ?_⟩
  · have h := c4_zero_fill.2 "Продажи, шт" (Cell.text "Итого") (by decide) (by decide)
    simpa using h
  · have h := c4_zero_fill.2 "Себестоимость без НДС" Cell.empty (by decide) (by decide)
    simpa using h

/-- C7: first, every table produced by the final sort of create_report is
ordered by the sort_values comparison — model code ascending, shop name
ascending within equal codes; second, on a worksheet whose model codes are
the text values 102, 11 and 2 and whose stores appear in the order B, A, the
canonical output orders the (model code, shop) pairs by string-compared code
ascending with shop ascending within each code. -/
theorem c7_sort_order :
    (∀ l : List FRow, (sortIns rowLe l).Pairwise fun a b => rowLe a b = true) ∧
    (run_dns_extended wsA).toOption.map (fun t => t.map keyPair) =
      some [(PValue.vraw (Cell.text "102"), PValue.vraw (Cell.text "A")),
            (PValue.vraw (Cell.text "102"), PValue.vraw (Cell.text "B")),
            (PValue.vraw (Cell.text "11"), PValue.vraw (Cell.text "A")),
            (PValue.vraw (Cell.text "11"), PValue.vraw (Cell.text "B")),
            (PValue.vraw (Cell.text "2"), PValue.vraw (Cell.text "A")),
            (PValue.vraw (Cell.text "2"), PValue.vraw (Cell.text "B"))] :=
  ⟨fun l => pairwise_sortIns rowLe rowLe_total rowLe_trans l, by decide⟩

/-- C9: a structure with zero discovered stores makes create_report raise the
ValueError announcing that no store was found, and the selector does not
catch a ValueError: the outcome passes through with no fallback run. -/
theorem c9_no_stores_fatal (g : Grid) (st : Structure) (h : st.shops = []) :
    create_report g st =
      Except.error (PyError.valueError "Не найдено ни одного магазина в данных") ∧
    ∀ fb : Except PyError (List FRow),
      selectExtendedDriver (create_report g st) fb = create_report g st := by
  have he : st.shops.isEmpty = true := by rw [h]; rfl
  have hrep : create_report g st =
      Except.error (PyError.valueError "Не найдено ни одного магазина в данных") := by
    unfold create_report
    rw [if_pos he]
  exact ⟨hrep, fun fb => by rw [hrep]; rfl⟩

/-- C9 witness at the fixture structure with zero stores. -/
theorem c9_no_stores_fatal_witness :
    stEmpty.shops = [] ∧
    create_report gA stEmpty =
      Except.error (PyError.valueError "Не найдено ни одного магазина в данных") ∧
    selectExtendedDriver (create_report gA stEmpty) (Except.ok []) =
      create_report gA stEmpty :=
  ⟨rfl, (c9_no_stores_fatal gA stEmpty rfl).1,
    (c9_no_stores_fatal gA stEmpty rfl).2 (Except.ok [])⟩

/-- C10: the final filter stages of the MVM driver and of the old-format DNS
driver keep exactly the rows with some non-zero metric: every row of the
output has a non-zero metric, and a row whose metric cells are all zero —
including cells that were empty and therefore zero-filled upstream — never
appears in the output. -/
theorem c10_nonzero_row_filter :
    (∀ (rows : List MvmRow) (r : MvmRow), r ∈ mvmNonzeroStage rows →
      (r.ostatkiSht ≠ 0 ∨ r.ostatkiRub ≠ 0 ∨ r.prodazhiRub ≠ 0 ∨ r.prodazhiSht ≠ 0)) ∧
    (∀ (rows : List MvmRow) (r : MvmRow), r.ostatkiSht = 0 → r.ostatkiRub = 0 →
      r.prodazhiRub = 0 → r.prodazhiSht = 0 → r ∉ mvmNonzeroStage rows) ∧
    (∀ (rows : List DnsOldRow) (r : DnsOldRow), r ∈ dnsOldNonzeroStage rows →
      (r.prodazhiSht ≠ 0 ∨ r.ostatkiSht ≠ 0 ∨ r.ostatkiVPuti ≠ 0)) ∧
    (∀ (rows : List DnsOldRow) (r : DnsOldRow), r.prodazhiSht = 0 → r.ostatkiSht = 0 →
      r.ostatkiVPuti = 0 → r ∉ dnsOldNonzeroStage rows) := by
  refine ⟨?_, ?_, ?_, ?_⟩
  · intro rows r h
    have hp := (List.mem_filter.mp h).2
    simpa [mvmNonzero, or_assoc] using hp
  · intro rows r h1 h2 h3 h4 hmem
    have hp := (List.mem_filter.mp hmem).2
    simp [mvmNonzero, h1, h2, h3, h4] at hp
  · intro rows r h
    have hp := (List.mem_filter.mp h).2
    simpa [dnsOldNonzero, or_assoc] using hp
  · intro rows r h1 h2 h3 hmem
    have hp := (List.mem_filter.mp hmem).2
    simp [dnsOldNonzero, h1, h2, h3] at hp

/-- C10 witness at the fixture rows: the live rows survive the filters with a
non-zero metric, the all-zero rows are excluded. -/
theorem c10_nonzero_row_filter_witness :
    (mvmRowLive ∈ mvmNonzeroStage [mvmRowZero, mvmRowLive] ∧
      dnsOldRowLive ∈ dnsOldNonzeroStage [dnsOldRowZero, dnsOldRowLive]) ∧
    (mvmRowLive.ostatkiSht ≠ 0 ∨ mvmRowLive.ostatkiRub ≠ 0 ∨
      mvmRowLive.prodazhiRub ≠ 0 ∨ mvmRowLive.prodazhiSht ≠ 0) ∧
    mvmRowZero ∉ mvmNonzeroStage [mvmRowZero, mvmRowLive] ∧
    (dnsOldRowLive.prodazhiSht ≠ 0 ∨ dnsOldRowLive.ostatkiSht ≠ 0 ∨
      dnsOldRowLive.ostatkiVPuti ≠ 0) ∧
    dnsOldRowZero ∉ dnsOldNonzeroStage [dnsOldRowZero, dnsOldRowLive] :=
  ⟨⟨by decide, by decide⟩,
    c10_nonzero_row_filter.1 [mvmRowZero, mvmRowLive] mvmRowLive (by decide),
    c10_nonzero_row_filter.2.1 [mvmRowZero, mvmRowLive] mvmRowZero rfl rfl rfl rfl,
    c10_nonzero_row_filter.2.2.1 [dnsOldRowZero, dnsOldRowLive] dnsOldRowLive (by decide),
    c10_nonzero_row_filter.2.2.2 [dnsOldRowZero, dnsOldRowLive] dnsOldRowZero rfl rfl rfl⟩

theorem mwidth_pos (ws : Worksheet) (r c : Nat) : 1 ≤ ws.mwidth r c := by
  unfold Worksheet.mwidth
  split <;> omega

/-- C6: whenever the Изделие anchor is found and the cell directly after its
merged span reads Итого, the metrics-label row is 1 plus the merged height
of the Итого cell (the row just below its vertical span), and the 0-based
first data row that _parse_structure stores is the row after the metrics
row, advanced by exactly one further row precisely when a merge anchored at
that row and the Изделие start column spans exactly the Изделие width. -/
theorem c6_first_data_row (ws : Worksheet) (izdCol : Nat)
    (h1 : findIzd ws = some izdCol)
    (h2 : ws.cellVal 1 (izdCol + ws.mwidth 1 izdCol) = Cell.text "Итого") :
    (parseStructure ws).map Structure.dataStartRow =
      Except.ok
        ((let metricRow := 1 + ws.mheight 1 (izdCol + ws.mwidth 1 izdCol)
          match mergeAt ws (metricRow + 1) izdCol with
          | some m =>
            if m.maxCol - m.minCol + 1 = ws.mwidth 1 izdCol then metricRow + 2
            else metricRow + 1
          | none => metricRow + 1) - 1) := by
  have hw : 1 ≤ ws.mwidth 1 izdCol := mwidth_pos ws 1 izdCol
  have hEnd : izdCol + ws.mwidth 1 izdCol - 1 + 1 = izdCol + ws.mwidth 1 izdCol := by
    omega
  simp only [parseStructure, h1, hEnd]
  rw [if_neg (not_not_intro h2)]
  rfl

/-- C6 witness at the fixture worksheet: the Итого merge spans header rows 1
and 2, so the metrics row is row 3, row 4 carries no category-total merge,
and the stored 0-based first data row is 3. -/
theorem c6_first_data_row_witness :
    (findIzd wsA = some 1 ∧
      wsA.cellVal 1 (1 + wsA.mwidth 1 1) = Cell.text "Итого") ∧
    (parseStructure wsA).map Structure.dataStartRow = Except.ok 3 := by
  refine ⟨⟨by decide, by decide⟩, ?_⟩
  have h := c6_first_data_row wsA 1 (by decide) (by decide)
  exact h.trans (congrArg Except.ok (by decide))

/-- C8: when the Изделие anchor is absent from the first header row, or the
cell directly after its merged span does not read Итого, _parse_structure
raises a KeyError — the exception class the selector treats as try another
driver — so the extended driver produces no table and the selector hands
the attempt to the fallback driver. -/
theorem c8_structure_mismatch (ws : Worksheet)
    (h : findIzd ws = none ∨
      ∃ c, findIzd ws = some c ∧ ws.cellVal 1 (c + ws.mwidth 1 c) ≠ Cell.text "Итого") :
    isKeyError (parseStructure ws) = true ∧
    isKeyError (run_dns_extended ws) = true ∧
    ∀ fb : Except PyError (List FRow),
      selectExtendedDriver (run_dns_extended ws) fb = fb := by
  have hkey : isKeyError (parseStructure ws) = true := by
    rcases h with hnone | ⟨c, hf, hne⟩
    · simp [parseStructure, hnone, isKeyError]
    · have hw : 1 ≤ ws.mwidth 1 c := mwidth_pos ws 1 c
      have hEnd : c + ws.mwidth 1 c - 1 + 1 = c + ws.mwidth 1 c := by omega
      simp only [parseStructure, hf, hEnd]
      rw [if_pos hne]
      rfl
  have hrun : isKeyError (run_dns_extended ws) = true := by
    unfold run_dns_extended
    cases hp : parseStructure ws with
    | error e =>
      rw [hp] at hkey
      cases e <;> simp [isKeyError] at hkey ⊢
    | ok st =>
      rw [hp] at hkey
      simp [isKeyError] at hkey
  refine ⟨hkey, hrun, fun fb => ?_⟩
  cases hr : run_dns_extended ws with
  | error e =>
    rw [hr] at hrun
    cases e with
    | keyError m => rfl
    | valueError m => simp [isKeyError] at hrun
    | indexError m => simp [isKeyError] at hrun
  | ok t =>
    rw [hr] at hrun
    simp [isKeyError] at hrun

/-- C8 witness at the fixture worksheet with no Изделие anchor. -/
theorem c8_structure_mismatch_witness :
    findIzd wsB = none ∧
    isKeyError (parseStructure wsB) = true ∧
    isKeyError (run_dns_extended wsB) = true ∧
    selectExtendedDriver (run_dns_extended wsB) (Except.ok []) = Except.ok [] := by
  have h := c8_structure_mismatch wsB (Or.inl (by decide))
  exact ⟨by decide, h.1, h.2.1, h.2.2 (Except.ok [])⟩

theorem dget_append_right_none {α : Type} (l1 l2 : List (String × α)) (k : String)
    (h : dget l2 k = none) : dget (l1 ++ l2) k = dget l1 k := by
  rw [dget_append, h]

theorem rkeys_append {α : Type} (a b : List (String × α)) :
    rkeys (a ++ b) = rkeys a ++ rkeys b := by
  simp [rkeys]

theorem rkeys_map_val {α β : Type} (l : List (String × α)) (f : α → β) :
    rkeys (l.map fun p => (p.1, f p.2)) = rkeys l := by
  unfold rkeys
  rw [List.map_map]
  rfl

theorem expandRows_mem (g : Grid) (pcm : List (String × Nat)) (artCol : Nat)
    (shops : List Shop) (start : Nat) (r : Row)
    (h : r ∈ expandRows g pcm artCol shops start) :
    ∃ ri ∈ dataRowIdxs g start, (toNumeric (g.cell ri artCol)).isSome = true ∧
      ∃ shop ∈ shops, r = buildRowData g pcm ri shop := by
  unfold expandRows at h
  rcases List.mem_flatMap.mp h with ⟨ri, hri, hmem⟩
  by_cases hp : (toNumeric (g.cell ri artCol)).isSome = true
  · rw [if_pos hp] at hmem
    rcases List.mem_map.mp hmem with ⟨shop, hs, rfl⟩
    exact ⟨ri, hri, hp, shop, hs, rfl⟩
  · rw [if_neg hp] at hmem
    simp at hmem

theorem dget_buildRowData_art (g : Grid) (pcm : List (String × Nat)) (ri : Nat)
    (shop : Shop) (artCol : Nat)
    (hac : dget pcm "Артикул" = some artCol)
    (hClash : ∀ p ∈ shop.metrics, (dget METRIC_MAPPING p.1).getD p.1 ≠ "Артикул") :
    dget (buildRowData g pcm ri shop) "Артикул" = some (g.cell ri artCol) := by
  have hC : dget (shop.metrics.map fun p =>
      ((dget METRIC_MAPPING p.1).getD p.1, fillMetric (g.cell ri p.2))) "Артикул" = none := by
    apply dget_eq_none_of_keys
    intro q hq
    rcases List.mem_map.mp hq with ⟨p, hp, rfl⟩
    exact hClash p hp
  have hB : dget [("Магазин", Cell.text shop.name),
      ("Код магазина", Cell.text shop.code)] "Артикул" = none := by
    simp [dget]
  unfold buildRowData
  rw [dget_append_right_none _ _ _ hC, dget_append_right_none _ _ _ hB, dget_map_val, hac]
  rfl

theorem art_mem_rkeys_buildRowData (g : Grid) (pcm : List (String × Nat)) (ri : Nat)
    (shop : Shop) (hK : (dget pcm "Артикул").isSome = true) :
    "Артикул" ∈ rkeys (buildRowData g pcm ri shop) := by
  unfold buildRowData
  rw [rkeys_append, rkeys_append, rkeys_map_val]
  exact List.mem_append_left _
    (List.mem_append_left _ ((dget_isSome_iff pcm "Артикул").mp hK))

theorem art_not_mem_rkeys_buildRowData (g : Grid) (pcm : List (String × Nat))
    (ri : Nat) (shop : Shop)
    (hpcm : dget pcm "Артикул" = none)
    (hClash : ∀ p ∈ shop.metrics, (dget METRIC_MAPPING p.1).getD p.1 ≠ "Артикул") :
    "Артикул" ∉ rkeys (buildRowData g pcm ri shop) := by
  unfold buildRowData
  rw [rkeys_append, rkeys_append, rkeys_map_val]
  intro hmem
  rcases List.mem_append.mp hmem with h1 | h2
  · rcases List.mem_append.mp h1 with ha | hb
    · have hs := (dget_isSome_iff pcm "Артикул").mpr ha
      rw [hpcm] at hs
      simp at hs
    · simp [rkeys] at hb
  · have h2a : "Артикул" ∈ (shop.metrics.map fun p =>
        ((dget METRIC_MAPPING p.1).getD p.1, fillMetric (g.cell ri p.2))).map Prod.fst := h2
    rcases List.mem_map.mp h2a with ⟨q, hq, hfst⟩
    rcases List.mem_map.mp hq with ⟨p, hp, rfl⟩
    exact hClash p hp hfst

theorem mem_productColMap_aux (pfs : List ProductField) (acc : List (String × Nat))
    (q : String × Nat)
    (h : q ∈ pfs.foldl (fun m pf =>
        match dget PRODUCT_FIELD_MAP pf.name with
        | some outName => m ++ [(outName, pf.pdCol)]
        | none => m) acc) :
    q ∈ acc ∨ ∃ pf ∈ pfs, dget PRODUCT_FIELD_MAP pf.name = some q.1 := by
  induction pfs generalizing acc with
  | nil => exact Or.inl h
  | cons pf t ih =>
    simp only [List.foldl_cons] at h
    rcases ih _ h with hacc | ⟨pf2, hpf2, hd⟩
    · cases hd2 : dget PRODUCT_FIELD_MAP pf.name with
      | some outName =>
        rw [hd2] at hacc
        rcases List.mem_append.mp hacc with ha | hb
        · exact Or.inl ha
        · simp only [List.mem_singleton] at hb
          subst hb
          exact Or.inr ⟨pf, List.mem_cons_self _ _, hd2⟩
      | none =>
        rw [hd2] at hacc
        exact Or.inl hacc
    · exact Or.inr ⟨pf2, List.mem_cons_of_mem _ hpf2, hd⟩

theorem pfm_art_needs_kod (s : String)
    (h : dget PRODUCT_FIELD_MAP s = some "Артикул") : s = "Код" := by
  by_cases h1 : s = "Код"
  · exact h1
  · exfalso
    by_cases h2 : s = "Товар"
    · subst h2
      revert h
      decide
    · by_cases h3 : s = "КодПроизводителя"
      · subst h3
        revert h
        decide
      · have hnone : dget PRODUCT_FIELD_MAP s = none := by
          apply dget_eq_none_of_keys
          intro p hp
          simp only [PRODUCT_FIELD_MAP, List.mem_cons, List.mem_singleton,
            List.not_mem_nil] at hp
          rcases hp with rfl | rfl | rfl | hfalse
          · exact fun heq => h1 heq.symm
          · exact fun heq => h2 heq.symm
          · exact fun heq => h3 heq.symm
          · exact absurd hfalse (by simp)
        rw [hnone] at h
        exact Option.noConfusion h

theorem dget_productColMap_none (pfs : List ProductField)
    (h : ∀ pf ∈ pfs, pf.name ≠ "Код") :
    dget (productColMap pfs) "Артикул" = none := by
  apply dget_eq_none_of_keys
  intro q hq heq
  rcases mem_productColMap_aux pfs [] q hq with h0 | ⟨pf, hpf, hd⟩
  · simp at h0
  · rw [heq] at hd
    exact h pf hpf (pfm_art_needs_kod pf.name hd)

/-- C2: on a grid whose data region holds N rows that all carry a numeric
article cell and whose metric cells are all present, with M discovered
stores, the Код label resolved and no metric label renaming onto the
article column, create_report succeeds and the canonical table has exactly
N times M rows — one per (product, store) pair. -/
theorem c2_row_count (g : Grid) (st : Structure)
    (hM : st.shops ≠ [])
    (hK : (dget (productColMap st.productFields) "Артикул").isSome = true)
    (hN : st.dataStartRow < g.nrows)
    (hArt : ∀ ri ∈ dataRowIdxs g st.dataStartRow,
      (toNumeric (g.cell ri (reportArtCol st))).isSome = true)
    (hClash : ∀ shop ∈ st.shops, ∀ p ∈ shop.metrics,
      (dget METRIC_MAPPING p.1).getD p.1 ≠ "Артикул")
    (hFull : ∀ ri ∈ dataRowIdxs g st.dataStartRow, ∀ shop ∈ st.shops,
      ∀ p ∈ shop.metrics, g.cell ri p.2 ≠ Cell.empty) :
    (create_report g st).map List.length =
      Except.ok ((g.nrows - st.dataStartRow) * st.shops.length) := by
  obtain ⟨artCol, hac⟩ := Option.isSome_iff_exists.mp hK
  have hartCol : reportArtCol st = artCol := by
    unfold reportArtCol
    rw [hac]
    rfl
  have hEmpty : ¬ (st.shops.isEmpty = true) := fun h => hM (by
    cases hs : st.shops with
    | nil => rfl
    | cons a t => rw [hs] at h; exact Bool.noConfusion h)
  have hlen : (reportAllRows g st).length =
      (g.nrows - st.dataStartRow) * st.shops.length := by
    have h1 : ∀ ri ∈ dataRowIdxs g st.dataStartRow,
        ((if (toNumeric (g.cell ri (reportArtCol st))).isSome = true
          then st.shops.map (buildRowData g (productColMap st.productFields) ri)
          else []) : List Row).length = st.shops.length := by
      intro ri hri
      rw [if_pos (hArt ri hri)]
      exact List.length_map _ _
    have h2 := length_flatMap_const (dataRowIdxs g st.dataStartRow)
      (fun ri => if (toNumeric (g.cell ri (reportArtCol st))).isSome = true
        then st.shops.map (buildRowData g (productColMap st.productFields) ri)
        else []) st.shops.length h1
    unfold reportAllRows expandRows
    rw [h2]
    simp [dataRowIdxs]
  have hAnyFalse : (reportAllRows g st).any
      (fun r => (toNumeric ((dget r "Артикул").getD Cell.empty)).isNone) = false := by
    rw [List.any_eq_false]
    intro r hr
    rcases expandRows_mem g _ _ _ _ r hr with ⟨ri, hri, hpass, shop, hshop, rfl⟩
    rw [hartCol] at hpass
    rw [dget_buildRowData_art g _ ri shop artCol hac (hClash shop hshop)]
    obtain ⟨q, hq⟩ := Option.isSome_iff_exists.mp hpass
    simp [hq]
  have hIn : "Артикул" ∈ reportCols g st := by
    have hpos : 0 < (reportAllRows g st).length := by
      rw [hlen]
      have hM2 : 0 < st.shops.length := List.length_pos.mpr hM
      have hN2 : 0 < g.nrows - st.dataStartRow := by omega
      exact Nat.mul_pos hN2 hM2
    obtain ⟨r, hr⟩ := List.exists_mem_of_length_pos hpos
    rcases expandRows_mem g _ _ _ _ r hr with ⟨ri, hri, hpass, shop, hshop, rfl⟩
    exact List.mem_flatMap.mpr
      ⟨_, hr, art_mem_rkeys_buildRowData g _ ri shop (by rw [hac]; rfl)⟩
  unfold create_report
  rw [if_neg hEmpty, if_neg (not_not_intro hIn), if_neg (by rw [hAnyFalse]; simp)]
  simp only [Except.map]
  congr 1
  rw [length_sortIns]
  unfold reportFinal reportCoerced
  rw [List.length_map, List.length_map]
  exact hlen

/-- C2 witness at the fixture: three products times two stores give six rows. -/
theorem c2_row_count_witness :
    (stA.shops ≠ [] ∧
      (dget (productColMap stA.productFields) "Артикул").isSome = true ∧
      stA.dataStartRow < gA.nrows ∧
      (∀ ri ∈ dataRowIdxs gA stA.dataStartRow,
        (toNumeric (gA.cell ri (reportArtCol stA))).isSome = true) ∧
      (∀ shop ∈ stA.shops, ∀ p ∈ shop.metrics,
        (dget METRIC_MAPPING p.1).getD p.1 ≠ "Артикул") ∧
      (∀ ri ∈ dataRowIdxs gA stA.dataStartRow, ∀ shop ∈ stA.shops,
        ∀ p ∈ shop.metrics, gA.cell ri p.2 ≠ Cell.empty)) ∧
    (gA.nrows - stA.dataStartRow) * stA.shops.length = 6 ∧
    (create_report gA stA).map List.length =
      Except.ok ((gA.nrows - stA.dataStartRow) * stA.shops.length) := by
  refine ⟨⟨by decide, by decide, by decide, by decide, by decide, by decide⟩,
    by decide, ?_⟩
  exact c2_row_count gA stA (by decide) (by decide) (by decide) (by decide)
    (by decide) (by decide)

/-- C5 counterexample: on a worksheet whose product-field row carries only
the labels Код and КодПроизводителя — so the mandatory Товар label cannot be
resolved to any column — the extended driver does not fail at all: it
completes and produces a canonical table. -/
theorem c5_counterexample :
    (parseStructure wsC).toOption.map
        (fun st => st.productFields.map ProductField.name) =
      some ["Код", "КодПроизводителя"] ∧
    isOkE (run_dns_extended wsC) = true :=
  ⟨by decide, by decide⟩

/-- C5 amended: only the Код label is load-bearing. When no product field is
labelled Код (and, as in every real layout, no metric output name is
Артикул), the expanded rows carry no Артикул key, so the first coercion
line raises KeyError Артикул — after expansion, naming the output column
rather than the unmatched source labels. A missing Товар or
КодПроизводителя label causes no failure (see the counterexample). -/
theorem c5_kod_label_failure (g : Grid) (st : Structure)
    (hShops : st.shops ≠ [])
    (hNoKod : ∀ pf ∈ st.productFields, pf.name ≠ "Код")
    (hClash : ∀ shop ∈ st.shops, ∀ p ∈ shop.metrics,
      (dget METRIC_MAPPING p.1).getD p.1 ≠ "Артикул") :
    create_report g st = Except.error (PyError.keyError "Артикул") := by
  have hpcm : dget (productColMap st.productFields) "Артикул" = none :=
    dget_productColMap_none _ hNoKod
  have hEmpty : ¬ (st.shops.isEmpty = true) := fun h => hShops (by
    cases hs : st.shops with
    | nil => rfl
    | cons a t => rw [hs] at h; exact Bool.noConfusion h)
  have hNotIn : "Артикул" ∉ reportCols g st := by
    intro hmem
    rcases List.mem_flatMap.mp hmem with ⟨r, hr, hk⟩
    rcases expandRows_mem g _ _ _ _ r hr with ⟨ri, hri, hpass, shop, hshop, rfl⟩
    exact art_not_mem_rkeys_buildRowData g _ ri shop hpcm (hClash shop hshop) hk
  unfold create_report
  rw [if_neg hEmpty, if_pos hNotIn]

/-- C5 amended witness at the fixture structure without the Код label. -/
theorem c5_kod_label_failure_witness :
    (stD.shops ≠ [] ∧
      (∀ pf ∈ stD.productFields, pf.name ≠ "Код") ∧
      (∀ shop ∈ stD.shops, ∀ p ∈ shop.metrics,
        (dget METRIC_MAPPING p.1).getD p.1 ≠ "Артикул")) ∧
    create_report gA stD = Except.error (PyError.keyError "Артикул") := by
  refine ⟨⟨by decide, by decide, by decide⟩, ?_⟩
  exact c5_kod_label_failure gA stD (by decide) (by decide) (by decide)
